import Mathlib

/-!
Shallow embedding of `src/main.py` (a point-of-sale receipt export parser):
the document segmenter `parse_csv`, the receipt builder `process_doc` and
`_process_items`, and the report writer `append_doc_to_csv`.

Python runtime behaviour is modelled explicitly:
* indexing a list out of range raises `IndexError`;
* a werkzeug `MultiDict` lookup of a missing key raises a `KeyError`
  subclass (the spec calls it `MissingRequiredFieldError`);
* `str.format` called with `**x` where `x` is not a mapping raises
  `TypeError`;
* `float` applied to a non-numeric string raises `ValueError`.

Python `float` arithmetic is modelled by exact decimal arithmetic (an
integer mantissa scaled by a power of ten): the values summed here are
plain decimal monetary literals, on which binary floating point followed by
two-digit rounding agrees with the exact value.
-/

deriving instance DecidableEq for Except

namespace Parsovacka

/-- One input line as produced by `csv.reader`: an ordered list of string
fields.  A blank input line tokenizes to the empty field list. -/
abbrev Record := List String

/-- Python exceptions the modelled code can raise. -/
inductive PyErr where
  | indexError
  | keyError (tag : String)
  | typeError
  | valueError
  deriving DecidableEq, Repr

/-- Python `xs[i]` on a list: `IndexError` when out of range (no negative
indices occur in the modelled code). -/
def listGet (xs : List String) (i : Nat) : Except PyErr String :=
  match xs.get? i with
  | some x => .ok x
  | none => .error .indexError

/-- Python `line[0]`: the tag of a record. -/
def tagOf (r : Record) : Except PyErr String := listGet r 0

/-- Loop of `parse_csv` (src/main.py:30-36): lines are accumulated into
`bill_lines`; when the first field of a line equals `DOCTR` the buffer
(including the sentinel line) is emitted and reset.  A trailing buffer with
no sentinel is never yielded.  Inspecting `line[0]` of an empty line raises
`IndexError`. -/
def parse_csv_from (buf : List Record) : List Record → Except PyErr (List (List Record))
  | [] => .ok []
  | l :: rest => do
    let t ← tagOf l
    if t = "DOCTR" then do
      let gs ← parse_csv_from [] rest
      pure ((buf ++ [l]) :: gs)
    else
      parse_csv_from (buf ++ [l]) rest

/-- The record groups produced by `parse_csv` (src/main.py:23-36) from a
tokenized line sequence. -/
def parse_csv (input : List Record) : Except PyErr (List (List Record)) :=
  parse_csv_from [] input

/-- The structure `MultiDict([(line[0], line[1:]) for line in lines])`
built at src/main.py:45: an association list of (tag, remaining fields)
pairs in input order.  Building it indexes `line[0]`, so an empty line
raises `IndexError`. -/
def buildIndex : List Record → Except PyErr (List (String × List String))
  | [] => .ok []
  | l :: rest => do
    let t ← tagOf l
    let md ← buildIndex rest
    pure ((t, l.tail) :: md)

/-- Lookup `md[key]` on a werkzeug `MultiDict`: the first value stored
under the key; a `KeyError` subclass when the key is absent. -/
def mdGet (md : List (String × List String)) (k : String) : Except PyErr (List String) :=
  match md.find? (fun p => p.1 == k) with
  | some p => .ok p.2
  | none => .error (.keyError k)

/-- Membership `key in md`. -/
def mdContains (md : List (String × List String)) (k : String) : Bool :=
  md.any (fun p => p.1 == k)

/-- Lookup `md.getlist(key)`: every value stored under the key, in
insertion order. -/
def mdGetlist (md : List (String × List String)) (k : String) : List (List String) :=
  (md.filter (fun p => p.1 == k)).map (fun p => p.2)

/-- Value of a digit string read in base 10. -/
def natOfDigits (cs : List Char) : ℕ :=
  cs.foldl (fun n c => 10 * n + (c.toNat - 48)) 0

/-- Split a character list at every dot, keeping empty parts. -/
def splitDot : List Char → List (List Char)
  | [] => [[]]
  | c :: r =>
    if c = '.' then [] :: splitDot r
    else
      match splitDot r with
      | [] => [[c]]
      | p :: ps => (c :: p) :: ps

/-- An exact decimal number: the pair `(m, e)` denotes `m / 10 ^ e`. -/
abbrev Dec := ℤ × ℕ

/-- Exact addition of decimal numbers over a common power-of-ten
denominator. -/
def decAdd : Dec → Dec → Dec
  | (m1, e1), (m2, e2) =>
    (m1 * 10 ^ (max e1 e2 - e1) + m2 * 10 ^ (max e1 e2 - e2), max e1 e2)

/-- Python `float(s)` on a plain decimal literal with an optional sign and
an optional fractional part (the only shapes the monetary data in scope
uses; exponents and special forms are not modelled), evaluated exactly.  A
string of any other shape raises `ValueError`. -/
def pyFloat (s : String) : Except PyErr Dec :=
  let (sgn, body) :=
    match s.data with
    | '-' :: r => ((-1 : ℤ), r)
    | '+' :: r => ((1 : ℤ), r)
    | r => ((1 : ℤ), r)
  match splitDot body with
  | [ip] =>
    if ip ≠ [] ∧ ip.all Char.isDigit then .ok (sgn * natOfDigits ip, 0)
    else .error .valueError
  | [ip, fp] =>
    if (ip ≠ [] ∨ fp ≠ []) ∧ ip.all Char.isDigit ∧ fp.all Char.isDigit then
      .ok (sgn * (natOfDigits ip * 10 ^ fp.length + natOfDigits fp), fp.length)
    else .error .valueError
  | _ => .error .valueError

/-- The number of hundredths nearest to a decimal value, ties to even: the
rounding behaviour of two-digit formatting on the exactly represented
values in scope. -/
def roundHalfEvenCents (d : Dec) : ℤ :=
  let N := d.1 * 100
  let D : ℤ := 10 ^ d.2
  let q := N.ediv D
  let r := N.emod D
  if 2 * r < D then q
  else if D < 2 * r then q + 1
  else if q.emod 2 = 0 then q else q + 1

/-- Python two-digit fixed-point formatting, the format spec used at
src/main.py:53: render with exactly two fractional digits. -/
def format_2f (x : Dec) : String :=
  let n : ℤ := roundHalfEvenCents x
  let sgnStr := if n < 0 then "-" else ""
  let m := n.natAbs
  sgnStr ++ toString (m / 100) ++ "." ++
    (if m % 100 < 10 then "0" ++ toString (m % 100) else toString (m % 100))

/-- Python string replace of every dot by a comma: the single-character
replacement pattern used throughout the source. -/
def pyReplaceDotComma (s : String) : String :=
  ⟨s.data.map (fun c => if c = '.' then ',' else c)⟩

/-- One processed line item: the dict built in the loop of
`_process_items` (src/main.py:70-80). -/
structure Item where
  order : String
  item_id : String
  title : String
  price : String
  price_total : String
  amount : String
  unit : String
  type_ : String
  sale : String
  deriving DecidableEq, Repr

/-- The dict comprehension of src/main.py:64, mapping the first stored
field of each adjustment record to its fourth stored field, kept as the
ordered list of pairs; indexing a record that is too short raises
`IndexError`. -/
def buildSales : List (List String) → Except PyErr (List (String × String))
  | [] => .ok []
  | adj :: rest => do
    let k ← listGet adj 0
    let v ← listGet adj 3
    let sl ← buildSales rest
    pure ((k, v) :: sl)

/-- Python dict lookup for the `buildSales` pairs: a later entry with the
same key overwrites an earlier one, so the value of a key is the value of
the last pair carrying it. -/
def salesLookup : List (String × String) → String → Option String
  | [], _ => none
  | (k0, v0) :: rest, k =>
    match salesLookup rest k with
    | some v => some v
    | none => if k0 == k then some v0 else none

/-- Body of the `for item in items` loop of `_process_items`
(src/main.py:66-80), with the list indexings evaluated in source order. -/
def processItem (sales : List (String × String)) (refund : Bool)
    (item : List String) : Except PyErr Item := do
  let order ← listGet item 1
  let storno ← listGet item 13
  let amount0 ← listGet item 6
  let amount := pyReplaceDotComma amount0
  let itemId ← listGet item 2
  let title ← listGet item 3
  let price ← listGet item 4
  let priceTotal ← listGet item 5
  let unit ← listGet item 7
  let ty ← listGet item 8
  pure
    { order := order
      item_id := itemId
      title := title
      price := pyReplaceDotComma price
      price_total := pyReplaceDotComma priceTotal
      amount := if storno == "V" || refund then "-" ++ amount else amount
      unit := unit
      type_ := ty
      sale :=
        match salesLookup sales order with
        | some v => "-" ++ pyReplaceDotComma v
        | none => "0" }

/-- The `for` loop of `_process_items`, accumulating processed items in
order. -/
def processItemsLoop (sales : List (String × String)) (refund : Bool) :
    List (List String) → Except PyErr (List Item)
  | [] => .ok []
  | item :: rest => do
    let p ← processItem sales refund item
    let ps ← processItemsLoop sales refund rest
    pure (p :: ps)

/-- Function `_process_items(items, adjustments, refund)`
(src/main.py:63-81). -/
def _process_items (items adjustments : List (List String)) (refund : Bool) :
    Except PyErr (List Item) := do
  let sales ← buildSales adjustments
  processItemsLoop sales refund items

/-- The expression `sum(map(lambda x: float(x[3]), adjis))`
(src/main.py:53): a left-to-right sum starting from `0`; the first record
that is too short or non-numeric raises. -/
def sumAdjis (acc : Dec) : List (List String) → Except PyErr Dec
  | [] => .ok acc
  | x :: rest => do
    let s ← listGet x 3
    let v ← pyFloat s
    sumAdjis (decAdd acc v) rest

/-- The `adjustment` entry of src/main.py:53: the `ADJI` sum rendered with
two fractional digits and then the dot-to-comma substitution. -/
def adjustmentOf (adjis : List (List String)) : Except PyErr String := do
  let s ← sumAdjis (0, 0) adjis
  pure (pyReplaceDotComma (format_2f s))

/-- The `bill` dict built by `process_doc` (src/main.py:46-60).  Optional
header fields are `none` exactly when the tag is absent (Python `None`).
The `items` field models the value assigned on line 59: that statement ends
with a trailing comma, so the processed item list is wrapped in a 1-tuple;
the tuple is modelled as a list whose elements are item *lists* (not item
dicts). -/
structure Bill where
  type_ : String
  id : Option String
  salesman : Option String
  total_price : Option String
  price_without_vat : Option String
  vat_amount : Option String
  adjustment : String
  payment_type : Option String
  date : Option String
  cash_id : Option String
  vat_id : Option String
  items : List (List Item)
  deriving DecidableEq, Repr

/-- An optional header field: `lines[tag][i] if tag in lines else None`. -/
def optField (md : List (String × List String)) (tag : String) (i : Nat) :
    Except PyErr (Option String) :=
  if mdContains md tag then do
    let v ← mdGet md tag
    let x ← listGet v i
    pure (some x)
  else
    pure none

/-- As `optField`, followed by the dot-to-comma substitution. -/
def optFieldComma (md : List (String × List String)) (tag : String) (i : Nat) :
    Except PyErr (Option String) := do
  let o ← optField md tag i
  pure (o.map pyReplaceDotComma)

/-- Function `process_doc(lines)` (src/main.py:39-60), with the dict
entries evaluated in source order. -/
def process_doc (lines : List Record) : Except PyErr Bill := do
  let md ← buildIndex lines
  let dochdr ← mdGet md "DOCHDR"
  let ty ← listGet dochdr 1
  let id? ← optField md "RCPID" 1
  let salesman ← optField md "RCPID" 0
  let totalPrice ← optFieldComma md "TTL" 0
  let priceWithoutVat ← optFieldComma md "TAXI" 3
  let vatAmount ← optFieldComma md "TAXI" 4
  let adjustment ← adjustmentOf (mdGetlist md "ADJI")
  let paymentType ← optField md "TNDR" 0
  let date ← optField md "RCPDT" 0
  let cashId ← optField md "ECRDESCR" 0
  let vatId ← optField md "ECRDESCR" 1
  let items ← _process_items (mdGetlist md "SI") (mdGetlist md "ADJI") (ty == "REFUND")
  pure
    { type_ := ty
      id := id?
      salesman := salesman
      total_price := totalPrice
      price_without_vat := priceWithoutVat
      vat_amount := vatAmount
      adjustment := adjustment
      payment_type := paymentType
      date := date
      cash_id := cashId
      vat_id := vatId
      items := [items] }

/-- Rendering of an optional field by `str.format`: Python `None` renders
as the string `None`. -/
def pyStrOpt : Option String → String
  | none => "None"
  | some s => s

/-- The summary row written to `csv1` (src/main.py:93), newline
included. -/
def summaryRow (doc : Bill) : String :=
  pyStrOpt doc.id ++ ";" ++ pyStrOpt doc.date ++ ";" ++ pyStrOpt doc.salesman ++ ";" ++
    pyStrOpt doc.price_without_vat ++ ";" ++ pyStrOpt doc.vat_amount ++ ";" ++
    doc.adjustment ++ ";" ++ pyStrOpt doc.payment_type ++ ";" ++ pyStrOpt doc.cash_id ++
    ";" ++ pyStrOpt doc.total_price ++ "\n"

/-- The detail row of src/main.py:96 as its format string renders for one
item mapping.  The running code never reaches a successful `format` call on
this line (see `append_doc_to_csv`), so this is the row that line *would*
produce for an item dict. -/
def detailRow (id? : Option String) (it : Item) : String :=
  pyStrOpt id? ++ ";" ++ it.item_id ++ ";" ++ it.amount ++ ";" ++ it.price ++ ";" ++
    it.sale ++ "\n"

/-- Outcome of one `append_doc_to_csv` call: the rows appended to the
summary file and to the detail file, and the exception that escaped, if
any.  Rows written before an exception stay written. -/
structure WriteResult where
  rows1 : List String
  rows2 : List String
  err : Option PyErr
  deriving DecidableEq, Repr

/-- Function `append_doc_to_csv(csv1, csv2, doc)` (src/main.py:84-96).
The two skip checks return without writing: a type other than `SALES` or
`REFUND`, and the identity check of the id against the empty string literal
on line 89 (CPython interns the empty string, so the check behaves as
equality with the empty string for string ids and is false for `None`).
Otherwise the summary row is written; then the loop on line 95 iterates the
1-tuple produced by the trailing comma of line 59, and `format(**item)`
receives the item *list*, which is not a mapping: `TypeError` is raised
before any detail row is written. -/
def append_doc_to_csv (doc : Bill) : WriteResult :=
  if doc.type_ ≠ "SALES" ∧ doc.type_ ≠ "REFUND" then ⟨[], [], none⟩
  else if doc.id = some "" then ⟨[], [], none⟩
  else
    match doc.items with
    | [] => ⟨[summaryRow doc], [], none⟩
    | _ :: _ => ⟨[summaryRow doc], [], some .typeError⟩

/-- A record whose tag is the document sentinel `DOCTR`. -/
def isSentinel (r : Record) : Bool := r.head? == some "DOCTR"

/-- The input sequence with the trailing records after the last sentinel
removed: a record is kept when a sentinel occurs at or after it, and the
trailing run with no later sentinel is dropped. -/
def keepThroughLastSentinel : List Record → List Record
  | [] => []
  | l :: rest =>
    let k := keepThroughLastSentinel rest
    if k = [] ∧ isSentinel l = false then [] else l :: k

/-- Tag presence in a raw record group: some line carries the tag as its
first field. -/
def tagPresent (lines : List Record) (t : String) : Bool :=
  lines.any (fun l => l.head? == some t)

/-- The last `ADJI` field-sequence whose first field is the given order
number: the entry that survives in the dict of `_process_items`, since
later dict entries overwrite earlier ones. -/
def lastAdjiFor : List (List String) → String → Option (List String)
  | [], _ => none
  | a :: rest, k =>
    match lastAdjiFor rest k with
    | some r => some r
    | none => if a.head? == some k then some a else none

/-- The rendered string begins with a minus sign. -/
def startsWithDash (s : String) : Bool := s.data.head? == some '-'

/-- A concrete record group: a SALES receipt with one line item and no
adjustment records, with every record of the arity the source indexes. -/
def gC1 : List Record :=
  [["DOCHDR", "x", "SALES"], ["RCPID", "S1", "R1"],
   ["SI", "a", "1", "I1", "T", "2.00", "2.00", "1", "ks", "A", "", "", "", "", "N"],
   ["DOCTR"]]

/-- The line item the builder derives from the `SI` record of `gC1`. -/
def itemC1 : Item :=
  { order := "1", item_id := "I1", title := "T", price := "2,00", price_total := "2,00",
    amount := "1", unit := "ks", type_ := "A", sale := "0" }

/-- The bill the builder derives from `gC1`. -/
def billC1 : Bill :=
  { type_ := "SALES", id := some "R1", salesman := some "S1", total_price := none,
    price_without_vat := none, vat_amount := none, adjustment := "0,00",
    payment_type := none, date := none, cash_id := none, vat_id := none,
    items := [[itemC1]] }

/-- The record group of the spec example, with the unspecified tail of the
`DOCHDR` record instantiated by one concrete extra field. -/
def gSpecExample : List Record :=
  [["DOCHDR", "SALES", "EXTRA"], ["RCPID", "SALESMAN7", "RCP42"], ["TTL", "123.45"],
   ["SI", "1", "ITEM9", "Widget", "10.00", "10.00", "1", "pcs", "A", "", "", "", "", "N"],
   ["ADJI", "1", "x", "2.50"], ["DOCTR"]]

/-- The spec example group corrected to the record arities the source
indexes: the document type sits in the third field of `DOCHDR`, the `SI`
record carries one extra field before the order number (15 fields in all),
and the `ADJI` record carries the discount in its fifth field. -/
def gSpecAmended : List Record :=
  [["DOCHDR", "x", "SALES"], ["RCPID", "SALESMAN7", "RCP42"], ["TTL", "123.45"],
   ["SI", "x", "1", "ITEM9", "Widget", "10.00", "10.00", "1", "pcs", "A", "", "", "", "", "N"],
   ["ADJI", "1", "x", "y", "2.50"], ["DOCTR"]]

/-- The line item the builder derives from the `SI` record of
`gSpecAmended`. -/
def itemSpec : Item :=
  { order := "1", item_id := "ITEM9", title := "Widget", price := "10,00",
    price_total := "10,00", amount := "1", unit := "pcs", type_ := "A", sale := "-2,50" }

/-- The bill the builder derives from `gSpecAmended`. -/
def billSpec : Bill :=
  { type_ := "SALES", id := some "RCP42", salesman := some "SALESMAN7",
    total_price := some "123,45", price_without_vat := none, vat_amount := none,
    adjustment := "2,50", payment_type := none, date := none, cash_id := none,
    vat_id := none, items := [[itemSpec]] }

/-- A minimal group building successfully: a three-field `DOCHDR` record
and the sentinel, every other tag absent. -/
def g6 : List Record := [["DOCHDR", "x", "SALES"], ["DOCTR"]]

/-- The bill built from `g6`: every optional header field null. -/
def bill6 : Bill :=
  { type_ := "SALES", id := none, salesman := none, total_price := none,
    price_without_vat := none, vat_amount := none, adjustment := "0,00",
    payment_type := none, date := none, cash_id := none, vat_id := none,
    items := [[]] }

/-- A REFUND group with two adjustment records and two line items, one of
them voided, used to instantiate the universal theorems. -/
def gW : List Record :=
  [["DOCHDR", "x", "REFUND"],
   ["ADJI", "1", "x", "y", "1.10"], ["ADJI", "2", "x", "y", "2.20"],
   ["SI", "a", "1", "I1", "T", "3.30", "3.30", "2", "ks", "A", "", "", "", "", "N"],
   ["SI", "a", "9", "I2", "U", "4.00", "4.00", "3", "ks", "A", "", "", "", "", "V"],
   ["DOCTR"]]

/-- The tagged index `buildIndex` produces for `gW`. -/
def mdW : List (String × List String) := gW.map (fun l => (l.headD "", l.tail))

/-- First line item of `gW`: not voided, discount matched by order `1`. -/
def itemW1 : Item :=
  { order := "1", item_id := "I1", title := "T", price := "3,30", price_total := "3,30",
    amount := "-2", unit := "ks", type_ := "A", sale := "-1,10" }

/-- Second line item of `gW`: voided, no matching discount. -/
def itemW2 : Item :=
  { order := "9", item_id := "I2", title := "U", price := "4,00", price_total := "4,00",
    amount := "-3", unit := "ks", type_ := "A", sale := "0" }

/-- The bill built from `gW`. -/
def billW : Bill :=
  { type_ := "REFUND", id := none, salesman := none, total_price := none,
    price_without_vat := none, vat_amount := none, adjustment := "3,30",
    payment_type := none, date := none, cash_id := none, vat_id := none,
    items := [[itemW1, itemW2]] }

/-- An input record sequence with one full group and a trailing
unterminated record. -/
def inp8 : List Record := [["DOCHDR", "SALES"], ["DOCTR"], ["TAIL", "x"]]

/-- A group whose single `ADJI` record carries different values in its 4th
and 5th fields (the tag counted as the first field). -/
def gAdj : List Record :=
  [["DOCHDR", "x", "SALES"], ["ADJI", "1", "x", "9.99", "2.50"], ["DOCTR"]]

/-- The bill built from `gAdj`. -/
def billAdj : Bill :=
  { type_ := "SALES", id := none, salesman := none, total_price := none,
    price_without_vat := none, vat_amount := none, adjustment := "2,50",
    payment_type := none, date := none, cash_id := none, vat_id := none,
    items := [[]] }

/-- A group whose `SI` record carries the order number `1` in both its 2nd
and 3rd fields, and whose matching `ADJI` record carries different values
in its 4th and 5th fields. -/
def gSale : List Record :=
  [["DOCHDR", "x", "SALES"],
   ["SI", "1", "1", "ITEM", "T", "1.00", "1.00", "1", "ks", "X", "", "", "", "", "N"],
   ["ADJI", "1", "x", "4.44", "5.55"], ["DOCTR"]]

/-- The line item built from the `SI` record of `gSale`. -/
def itemSale : Item :=
  { order := "1", item_id := "ITEM", title := "T", price := "1,00",
    price_total := "1,00", amount := "1", unit := "ks", type_ := "X",
    sale := "-5,55" }

/-- The bill built from `gSale`. -/
def billSale : Bill :=
  { type_ := "SALES", id := none, salesman := none, total_price := none,
    price_without_vat := none, vat_amount := none, adjustment := "5,55",
    payment_type := none, date := none, cash_id := none, vat_id := none,
    items := [[itemSale]] }

/-- A non-refund group whose `SI` record carries `V` as its 14th field and
`N` as its 15th (the tag counted as the first field). -/
def gVoid : List Record :=
  [["DOCHDR", "x", "SALES"],
   ["SI", "a", "1", "I", "T", "1.00", "1.00", "2", "ks", "X", "", "", "", "V", "N"],
   ["DOCTR"]]

/-- The line item built from the `SI` record of `gVoid`. -/
def itemVoid : Item :=
  { order := "1", item_id := "I", title := "T", price := "1,00",
    price_total := "1,00", amount := "2", unit := "ks", type_ := "X",
    sale := "0" }

/-- The bill built from `gVoid`. -/
def billVoid : Bill :=
  { type_ := "SALES", id := none, salesman := none, total_price := none,
    price_without_vat := none, vat_amount := none, adjustment := "0,00",
    payment_type := none, date := none, cash_id := none, vat_id := none,
    items := [[itemVoid]] }

/-- Destructuring a successful `Except` bind. -/
theorem exceptBind_ok {ε α β : Type} {x : Except ε α} {f : α → Except ε β} {b : β}
    (h : x >>= f = .ok b) : ∃ a, x = .ok a ∧ f a = .ok b := by
  cases x with
  | error e => simp [Bind.bind, Except.bind] at h
  | ok a => exact ⟨a, rfl, by simpa [Bind.bind, Except.bind] using h⟩

/-- A successful `listGet` is an in-range `get?`. -/
theorem listGet_ok {xs : List String} {i : Nat} {x : String}
    (h : listGet xs i = .ok x) : xs.get? i = some x := by
  unfold listGet at h
  split at h
  · cases h; assumption
  · cases h

/-- On a group of nonempty records, `buildIndex` succeeds and pairs each
tag with the remaining fields of its line. -/
theorem buildIndex_ok_of_nonempty {lines : List Record}
    (h : ∀ l ∈ lines, l ≠ []) :
    buildIndex lines = .ok (lines.map (fun l => (l.headD "", l.tail))) := by
  induction lines with
  | nil => rfl
  | cons l rest ih =>
    have hl : l ≠ [] := h l (by simp)
    have hr : ∀ x ∈ rest, x ≠ [] := fun x hx => h x (by simp [hx])
    cases l with
    | nil => exact absurd rfl hl
    | cons a as =>
      unfold buildIndex
      simp [tagOf, listGet, ih hr, Bind.bind, Except.bind, pure, Except.pure]

/-- A key outside the index raises the missing-key error. -/
theorem mdGet_eq_keyError {md : List (String × List String)} {t : String}
    (h : mdContains md t = false) : mdGet md t = .error (.keyError t) := by
  unfold mdGet
  rw [List.find?_eq_none.mpr ?_]
  intro p hp
  unfold mdContains at h
  rw [List.any_eq_false] at h
  exact fun hk => absurd hk (by simpa using h p hp)

/-- The index built from nonempty records contains a tag exactly when some
line carries it as its first field. -/
theorem mdContains_eq_tagPresent {lines : List Record}
    (h : ∀ l ∈ lines, l ≠ []) (t : String) :
    mdContains (lines.map (fun l => (l.headD "", l.tail))) t = tagPresent lines t := by
  induction lines with
  | nil => rfl
  | cons l rest ih =>
    have hl : l ≠ [] := h l (by simp)
    have hr : ∀ x ∈ rest, x ≠ [] := fun x hx => h x (by simp [hx])
    cases l with
    | nil => exact absurd rfl hl
    | cons a as =>
      unfold mdContains tagPresent
      unfold mdContains tagPresent at ih
      simp only [List.map_cons, List.any_cons, ih hr]
      rfl

/-- An absent optional tag yields a null field without an error. -/
theorem optField_of_not_contains {md : List (String × List String)} {t : String}
    {i : Nat} (h : mdContains md t = false) : optField md t i = .ok none := by
  simp only [optField, h]
  rfl

/-- An absent optional tag yields a null field through `optFieldComma` as
well. -/
theorem optFieldComma_of_not_contains {md : List (String × List String)} {t : String}
    {i : Nat} (h : mdContains md t = false) : optFieldComma md t i = .ok none := by
  unfold optFieldComma
  rw [optField_of_not_contains h]
  rfl

/-- Destructuring a successful `process_doc` run into the component
computations of src/main.py:46-60. -/
theorem process_doc_ok {lines : List Record} {b : Bill}
    (h : process_doc lines = .ok b) :
    ∃ md dochdr ty items,
      buildIndex lines = .ok md ∧
      mdGet md "DOCHDR" = .ok dochdr ∧
      dochdr.get? 1 = some ty ∧
      optField md "RCPID" 1 = .ok b.id ∧
      optField md "RCPID" 0 = .ok b.salesman ∧
      optFieldComma md "TTL" 0 = .ok b.total_price ∧
      optFieldComma md "TAXI" 3 = .ok b.price_without_vat ∧
      optFieldComma md "TAXI" 4 = .ok b.vat_amount ∧
      adjustmentOf (mdGetlist md "ADJI") = .ok b.adjustment ∧
      optField md "TNDR" 0 = .ok b.payment_type ∧
      optField md "RCPDT" 0 = .ok b.date ∧
      optField md "ECRDESCR" 0 = .ok b.cash_id ∧
      optField md "ECRDESCR" 1 = .ok b.vat_id ∧
      _process_items (mdGetlist md "SI") (mdGetlist md "ADJI") (ty == "REFUND") = .ok items ∧
      b.type_ = ty ∧ b.items = [items] := by
  unfold process_doc at h
  obtain ⟨md, hmd, h⟩ := exceptBind_ok h
  obtain ⟨dochdr, hdoc, h⟩ := exceptBind_ok h
  obtain ⟨ty, hty, h⟩ := exceptBind_ok h
  obtain ⟨idv, hid, h⟩ := exceptBind_ok h
  obtain ⟨sal, hsal, h⟩ := exceptBind_ok h
  obtain ⟨tot, htot, h⟩ := exceptBind_ok h
  obtain ⟨pwv, hpwv, h⟩ := exceptBind_ok h
  obtain ⟨vam, hvam, h⟩ := exceptBind_ok h
  obtain ⟨adj, hadj, h⟩ := exceptBind_ok h
  obtain ⟨pay, hpay, h⟩ := exceptBind_ok h
  obtain ⟨dat, hdat, h⟩ := exceptBind_ok h
  obtain ⟨cid, hcid, h⟩ := exceptBind_ok h
  obtain ⟨vid, hvid, h⟩ := exceptBind_ok h
  obtain ⟨its, hits, h⟩ := exceptBind_ok h
  have hb : Except.ok (ε := PyErr)
      ({ type_ := ty, id := idv, salesman := sal, total_price := tot,
         price_without_vat := pwv, vat_amount := vam, adjustment := adj,
         payment_type := pay, date := dat, cash_id := cid, vat_id := vid,
         items := [its] } : Bill) = .ok b := h
  have hb2 := Except.ok.inj hb
  subst hb2
  exact ⟨md, dochdr, ty, its, hmd, hdoc, listGet_ok hty, hid, hsal, htot, hpwv,
    hvam, hadj, hpay, hdat, hcid, hvid, hits, rfl, rfl⟩

/-- C10: the Record Tokenizer is not total on its advertised input.  A
blank line tokenizes to the empty field list, and inspecting `line[0]` of
that empty record raises `IndexError` instead of skipping the line or
raising the declared malformed-record error. -/
theorem tokenizer_blank_line_index_error :
    parse_csv [["HDR", "x"], [], ["DOCTR"]] = .error .indexError := by decide

/-- C9: the Receipt Builder checks tag existence but never record length.
Each of these groups carries every required tag, yet raises `IndexError`:
a `DOCHDR` record with fewer than 3 fields, a `TAXI` record with fewer than
6, an `SI` record with fewer than 15, and an `ADJI` record with fewer than
5. -/
theorem builder_unchecked_record_length :
    process_doc [["DOCHDR", "SALES"], ["DOCTR"]] = .error .indexError ∧
    process_doc [["DOCHDR", "x", "SALES"], ["TAXI", "a", "b", "c", "d"], ["DOCTR"]] =
      .error .indexError ∧
    process_doc [["DOCHDR", "x", "SALES"],
      ["SI", "a", "1", "I1", "T", "1.00", "1.00", "1", "ks", "A", "", "", "", ""],
      ["DOCTR"]] = .error .indexError ∧
    process_doc [["DOCHDR", "x", "SALES"], ["ADJI", "1", "x", "2.50"], ["DOCTR"]] =
      .error .indexError := by decide

/-- C1: fails on the code (code bug).  For the included receipt built from
`gC1`, whose line-item list holds exactly one item, the writer emits the
summary row and then raises `TypeError`: the trailing comma of
src/main.py:59 wraps the item list in a 1-tuple, so `format(**item)` on
line 96 receives a list instead of an item dict.  Zero detail rows are
emitted instead of one per line item. -/
theorem writer_detail_rows_lost :
    process_doc gC1 = .ok billC1 ∧
    billC1.items = [[itemC1]] ∧
    append_doc_to_csv billC1 =
      ⟨["R1;None;S1;None;None;0,00;None;None;None\n"], [], some .typeError⟩ := by decide

/-- C2: counterexample.  Building the receipt from the record group stated
in the claim raises `IndexError`: the adjustment sum reads the fifth field
of the 4-field `ADJI` record.  No summary or detail row is produced. -/
theorem spec_example_group_fails :
    process_doc gSpecExample = .error .indexError := by decide

/-- C2 (amended): with the record arities the source indexes
(`gSpecAmended`), the builder succeeds: the receipt type `SALES` is read
from the third field of `DOCHDR`, the summary row is
`RCP42;None;SALESMAN7;None;None;2,50;None;None;123,45`, and the line item
data renders as the detail row `RCP42;ITEM9;1;10,00;-2,50`; but the writer
raises `TypeError` from the items 1-tuple after writing the summary row and
emits no detail row. -/
theorem spec_example_group_amended :
    process_doc gSpecAmended = .ok billSpec ∧
    summaryRow billSpec = "RCP42;None;SALESMAN7;None;None;2,50;None;None;123,45\n" ∧
    detailRow billSpec.id itemSpec = "RCP42;ITEM9;1;10,00;-2,50\n" ∧
    append_doc_to_csv billSpec =
      ⟨["RCP42;None;SALESMAN7;None;None;2,50;None;None;123,45\n"], [], some .typeError⟩ := by
  decide

/-- C6: counterexample.  The group `[["DOCHDR", "SALES"]]` contains a
`DOCHDR` record and lacks every optional tag, yet the builder raises
`IndexError` while reading the third field of the 2-field `DOCHDR` record,
instead of returning a receipt with null header fields and no error. -/
theorem optional_tags_counterexample :
    process_doc [["DOCHDR", "SALES"]] = .error .indexError := by decide

/-- C6 (amended): over groups of nonempty records, a group with no
`DOCHDR` record makes the builder raise the missing-key error for
`DOCHDR`; whenever the builder succeeds, every absent optional tag
(`RCPID`, `TTL`, `TAXI`, `TNDR`, `RCPDT`, `ECRDESCR`) yields the
corresponding null receipt fields; and a group whose `DOCHDR` record has at
least three fields and which lacks every other tag builds without error,
all optional fields null, shown on the representative group `g6`. -/
theorem required_dochdr_amended (lines : List Record) (b : Bill)
    (hne : ∀ l ∈ lines, l ≠ []) :
    (tagPresent lines "DOCHDR" = false →
      process_doc lines = .error (.keyError "DOCHDR")) ∧
    (process_doc lines = .ok b →
      (tagPresent lines "RCPID" = false → b.id = none ∧ b.salesman = none) ∧
      (tagPresent lines "TTL" = false → b.total_price = none) ∧
      (tagPresent lines "TAXI" = false →
        b.price_without_vat = none ∧ b.vat_amount = none) ∧
      (tagPresent lines "TNDR" = false → b.payment_type = none) ∧
      (tagPresent lines "RCPDT" = false → b.date = none) ∧
      (tagPresent lines "ECRDESCR" = false → b.cash_id = none ∧ b.vat_id = none)) ∧
    process_doc g6 = .ok bill6 := by
  have hbi := buildIndex_ok_of_nonempty hne
  refine ⟨fun habs => ?_, fun hok => ?_, by decide⟩
  · unfold process_doc
    rw [hbi]
    have hkey : mdGet (lines.map fun l => (l.headD "", l.tail)) "DOCHDR" =
        .error (.keyError "DOCHDR") := by
      refine mdGet_eq_keyError ?_
      rw [mdContains_eq_tagPresent hne]
      exact habs
    simp only [Bind.bind, Except.bind]
    rw [hkey]
  · obtain ⟨md, dochdr, ty, items, hmd, _, _, hid, hsal, htot, hpwv, hvam, _,
      hpay, hdat, hcid, hvid, _, _, _⟩ := process_doc_ok hok
    have hmd2 : md = lines.map (fun l => (l.headD "", l.tail)) := by
      rw [hbi] at hmd
      exact (Except.ok.inj hmd).symm
    have hcon : ∀ t : String, tagPresent lines t = false → mdContains md t = false := by
      intro t ht
      rw [hmd2, mdContains_eq_tagPresent hne]
      exact ht
    refine ⟨fun h1 => ⟨?_, ?_⟩, fun h1 => ?_, fun h1 => ⟨?_, ?_⟩, fun h1 => ?_,
      fun h1 => ?_, fun h1 => ⟨?_, ?_⟩⟩
    · rw [optField_of_not_contains (hcon _ h1)] at hid
      exact (Except.ok.inj hid).symm
    · rw [optField_of_not_contains (hcon _ h1)] at hsal
      exact (Except.ok.inj hsal).symm
    · rw [optFieldComma_of_not_contains (hcon _ h1)] at htot
      exact (Except.ok.inj htot).symm
    · rw [optFieldComma_of_not_contains (hcon _ h1)] at hpwv
      exact (Except.ok.inj hpwv).symm
    · rw [optFieldComma_of_not_contains (hcon _ h1)] at hvam
      exact (Except.ok.inj hvam).symm
    · rw [optField_of_not_contains (hcon _ h1)] at hpay
      exact (Except.ok.inj hpay).symm
    · rw [optField_of_not_contains (hcon _ h1)] at hdat
      exact (Except.ok.inj hdat).symm
    · rw [optField_of_not_contains (hcon _ h1)] at hcid
      exact (Except.ok.inj hcid).symm
    · rw [optField_of_not_contains (hcon _ h1)] at hvid
      exact (Except.ok.inj hvid).symm

/-- C6 witness: the missing-`DOCHDR` branch and the null-field branch of
the amended statement, each evaluated at a concrete group. -/
theorem required_dochdr_amended_witness :
    process_doc [["RCPID", "a", "b"], ["DOCTR"]] = .error (.keyError "DOCHDR") ∧
    bill6.id = none ∧ bill6.salesman = none :=
  ⟨(required_dochdr_amended [["RCPID", "a", "b"], ["DOCTR"]] bill6 (by decide)).1
      (by decide),
   ((required_dochdr_amended g6 bill6 (by decide)).2.1 (by decide)).1 (by decide)⟩

/-- C7: the Report Writer writes rows only for receipts whose type is
`SALES` or `REFUND`: any other type yields zero output rows and no error;
a receipt whose id is the empty string yields zero output rows and no
error; a receipt whose id is null (absent `RCPID`) is still written, that
is, its summary row is emitted. -/
theorem writer_inclusion_rule (doc : Bill) :
    ((doc.type_ ≠ "SALES" ∧ doc.type_ ≠ "REFUND") →
      append_doc_to_csv doc = ⟨[], [], none⟩) ∧
    (doc.id = some "" → append_doc_to_csv doc = ⟨[], [], none⟩) ∧
    ((doc.type_ = "SALES" ∨ doc.type_ = "REFUND") → doc.id = none →
      (append_doc_to_csv doc).rows1 = [summaryRow doc]) := by
  refine ⟨fun h => ?_, fun h => ?_, fun ht hid => ?_⟩
  · unfold append_doc_to_csv
    rw [if_pos h]
  · unfold append_doc_to_csv
    by_cases hty : doc.type_ ≠ "SALES" ∧ doc.type_ ≠ "REFUND"
    · rw [if_pos hty]
    · rw [if_neg hty, if_pos h]
  · unfold append_doc_to_csv
    have hty : ¬ (doc.type_ ≠ "SALES" ∧ doc.type_ ≠ "REFUND") := by
      rcases ht with h1 | h1 <;> simp [h1]
    have hid2 : ¬ doc.id = some "" := by
      rw [hid]
      simp
    rw [if_neg hty, if_neg hid2]
    cases doc.items <;> rfl

/-- C7 witness: the three writer branches evaluated at concrete bills. -/
theorem writer_inclusion_rule_witness :
    append_doc_to_csv { billC1 with type_ := "VOID" } = ⟨[], [], none⟩ ∧
    append_doc_to_csv { billC1 with id := some "" } = ⟨[], [], none⟩ ∧
    (append_doc_to_csv { billC1 with id := none }).rows1 =
      [summaryRow { billC1 with id := none }] :=
  ⟨(writer_inclusion_rule _).1 (by decide),
   (writer_inclusion_rule _).2.1 (by decide),
   (writer_inclusion_rule _).2.2 (by decide) (by decide)⟩

/-- The adjustment field of a successfully built bill is the rendered
`ADJI` sum. -/
theorem adjustment_component {lines : List Record}
    {md : List (String × List String)} {b : Bill}
    (hmd : buildIndex lines = .ok md) (hb : process_doc lines = .ok b) :
    ∃ s, sumAdjis ((0 : ℤ), (0 : ℕ)) (mdGetlist md "ADJI") = .ok s ∧
      b.adjustment = pyReplaceDotComma (format_2f s) := by
  obtain ⟨md1, dochdr, ty, items, hmd1, _, _, _, _, _, _, _, hadj, _, _, _, _, _,
    _, _⟩ := process_doc_ok hb
  have hmeq : md1 = md := Except.ok.inj (hmd1.symm.trans hmd)
  subst hmeq
  unfold adjustmentOf at hadj
  obtain ⟨s, hs, h2⟩ := exceptBind_ok hadj
  exact ⟨s, hs, (Except.ok.inj h2).symm⟩

/-- C3: counterexample.  In the group `gAdj` the single `ADJI` record is
`ADJI,1,x,9.99,2.50`: its 4th field, the tag counted as the first field,
is `9.99` (record index 3, as the same summation applied to the full
record shows), so the claim requires adjustment `9,99`; the receipt builds
with adjustment `2,50` instead — the code sums the 5th field. -/
theorem adjustment_fourth_field_refuted :
    process_doc gAdj = .ok billAdj ∧
    listGet ["ADJI", "1", "x", "9.99", "2.50"] 3 = .ok "9.99" ∧
    sumAdjis ((0 : ℤ), (0 : ℕ)) [["ADJI", "1", "x", "9.99", "2.50"]] =
      .ok (999, 2) ∧
    pyReplaceDotComma (format_2f (999, 2)) = "9,99" ∧
    billAdj.adjustment = "2,50" ∧
    billAdj.adjustment ≠ pyReplaceDotComma (format_2f (999, 2)) := by decide

/-- C3 (amended): for every record group whose receipt builds, the
adjustment field is the sum of the 5th field of each `ADJI` record of the
group — the 4th stored field after the tag, index 3 of the tagged-index
value, one position past the 4th field the claim names — with the empty
sum when there are none, rendered with exactly two fractional digits and
with `,` substituted for `.`; and the value depends only on the `ADJI`
list of the group, not on the line items the individual discounts are
allocated to. -/
theorem adjustment_sum_law (lines : List Record)
    (md : List (String × List String)) (b : Bill)
    (hmd : buildIndex lines = .ok md) (hb : process_doc lines = .ok b) :
    (∃ s, sumAdjis ((0 : ℤ), (0 : ℕ)) (mdGetlist md "ADJI") = .ok s ∧
      b.adjustment = pyReplaceDotComma (format_2f s)) ∧
    (∀ lines2 md2 b2, buildIndex lines2 = .ok md2 → process_doc lines2 = .ok b2 →
      mdGetlist md2 "ADJI" = mdGetlist md "ADJI" → b2.adjustment = b.adjustment) := by
  refine ⟨adjustment_component hmd hb, fun lines2 md2 b2 hmd2 hb2 hgl => ?_⟩
  obtain ⟨s, hs, he⟩ := adjustment_component hmd hb
  obtain ⟨s2, hs2, he2⟩ := adjustment_component hmd2 hb2
  rw [hgl] at hs2
  have : s2 = s := Except.ok.inj (hs2.symm.trans hs)
  rw [he2, he, this]

/-- C3 witness: the `REFUND` group `gW` carries two `ADJI` records summing
to the exact decimal 3.30; the receipt builds and its adjustment field is
that sum rendered as `3,30`. -/
theorem adjustment_sum_law_witness :
    buildIndex gW = .ok mdW ∧ process_doc gW = .ok billW ∧
    sumAdjis ((0 : ℤ), (0 : ℕ)) (mdGetlist mdW "ADJI") = .ok (330, 2) ∧
    billW.adjustment = pyReplaceDotComma (format_2f (330, 2)) := by
  refine ⟨by decide, by decide, by decide, ?_⟩
  obtain ⟨s, hs, he⟩ := (adjustment_sum_law gW mdW billW (by decide) (by decide)).1
  have hseq : Except.ok (ε := PyErr) s = .ok ((330 : ℤ), (2 : ℕ)) := by
    rw [← hs]
    decide
  rw [he, Except.ok.inj hseq]

/-- A successful `processItemsLoop` run processes the items pointwise in
order. -/
theorem processItemsLoop_ok {sales : List (String × String)} {refund : Bool}
    {items : List (List String)} {out : List Item}
    (h : processItemsLoop sales refund items = .ok out) :
    out.length = items.length ∧
    ∀ i (hi : i < items.length) (ho : i < out.length),
      processItem sales refund (items.get ⟨i, hi⟩) = .ok (out.get ⟨i, ho⟩) := by
  induction items generalizing out with
  | nil =>
    have : ([] : List Item) = out := Except.ok.inj h
    subst this
    exact ⟨rfl, fun i hi => absurd hi (by simp)⟩
  | cons it rest ih =>
    unfold processItemsLoop at h
    obtain ⟨p, hp, h⟩ := exceptBind_ok h
    obtain ⟨ps, hps, h⟩ := exceptBind_ok h
    have hout : p :: ps = out := Except.ok.inj h
    subst hout
    obtain ⟨hlen, hidx⟩ := ih hps
    refine ⟨by simp [hlen], fun i hi ho => ?_⟩
    cases i with
    | zero => exact hp
    | succ n => exact hidx n (by simpa using hi) (by simpa using ho)

/-- Unfolding one successful `processItem` call into the fields the source
reads and the item dict it builds. -/
theorem processItem_ok {sales : List (String × String)} {refund : Bool}
    {item : List String} {it : Item} (h : processItem sales refund item = .ok it) :
    ∃ order storno q iid title price ptotal unitv ty,
      item.get? 1 = some order ∧ item.get? 13 = some storno ∧
      item.get? 6 = some q ∧ item.get? 2 = some iid ∧ item.get? 3 = some title ∧
      item.get? 4 = some price ∧ item.get? 5 = some ptotal ∧
      item.get? 7 = some unitv ∧ item.get? 8 = some ty ∧
      it = { order := order, item_id := iid, title := title,
             price := pyReplaceDotComma price,
             price_total := pyReplaceDotComma ptotal,
             amount := if storno == "V" || refund then "-" ++ pyReplaceDotComma q
                       else pyReplaceDotComma q,
             unit := unitv, type_ := ty,
             sale := match salesLookup sales order with
                     | some v => "-" ++ pyReplaceDotComma v
                     | none => "0" } := by
  unfold processItem at h
  obtain ⟨order, h1, h⟩ := exceptBind_ok h
  obtain ⟨storno, h2, h⟩ := exceptBind_ok h
  obtain ⟨q, h3, h⟩ := exceptBind_ok h
  obtain ⟨iid, h4, h⟩ := exceptBind_ok h
  obtain ⟨title, h5, h⟩ := exceptBind_ok h
  obtain ⟨price, h6, h⟩ := exceptBind_ok h
  obtain ⟨ptotal, h7, h⟩ := exceptBind_ok h
  obtain ⟨unitv, h8, h⟩ := exceptBind_ok h
  obtain ⟨ty, h9, h⟩ := exceptBind_ok h
  exact ⟨order, storno, q, iid, title, price, ptotal, unitv, ty,
    listGet_ok h1, listGet_ok h2, listGet_ok h3, listGet_ok h4, listGet_ok h5,
    listGet_ok h6, listGet_ok h7, listGet_ok h8, listGet_ok h9,
    (Except.ok.inj h).symm⟩

/-- Every record of a list accepted by `buildSales` carries its key and
value fields. -/
theorem buildSales_ok_mem {adjis : List (List String)}
    {sl : List (String × String)} (h : buildSales adjis = .ok sl) :
    ∀ a ∈ adjis, ∃ k v, a.get? 0 = some k ∧ a.get? 3 = some v := by
  induction adjis generalizing sl with
  | nil => exact fun a ha => absurd ha (by simp)
  | cons adj rest ih =>
    unfold buildSales at h
    obtain ⟨k, hk, h⟩ := exceptBind_ok h
    obtain ⟨v, hv, h⟩ := exceptBind_ok h
    obtain ⟨sl2, hsl, h⟩ := exceptBind_ok h
    intro a ha
    rcases List.mem_cons.mp ha with rfl | ha2
    · exact ⟨k, v, listGet_ok hk, listGet_ok hv⟩
    · exact ih hsl a ha2

/-- A record selected by `lastAdjiFor` belongs to the list and matches the
order number. -/
theorem lastAdjiFor_mem {adjis : List (List String)} {k : String}
    {a : List String} (h : lastAdjiFor adjis k = some a) :
    a ∈ adjis ∧ a.head? = some k := by
  induction adjis with
  | nil => cases h
  | cons x rest ih =>
    unfold lastAdjiFor at h
    cases hl : lastAdjiFor rest k with
    | some r =>
      rw [hl] at h
      obtain ⟨hm, hh⟩ := ih (hl.trans (congrArg some (Option.some.inj h)))
      exact ⟨List.mem_cons_of_mem _ hm, hh⟩
    | none =>
      rw [hl] at h
      by_cases hx : (x.head? == some k) = true
      · rw [if_pos hx] at h
        have := Option.some.inj h
        subst this
        exact ⟨List.mem_cons_self _ _, by simpa using hx⟩
      · rw [if_neg hx] at h
        cases h

/-- When no record matches the order number, `lastAdjiFor` finds
nothing. -/
theorem lastAdjiFor_eq_none {adjis : List (List String)} {k : String}
    (h : ∀ a ∈ adjis, a.head? ≠ some k) : lastAdjiFor adjis k = none := by
  induction adjis with
  | nil => rfl
  | cons x rest ih =>
    unfold lastAdjiFor
    rw [ih (fun a ha => h a (List.mem_cons_of_mem _ ha))]
    have hx : (x.head? == some k) = false := by
      have := h x (List.mem_cons_self _ _)
      simpa using this
    rw [hx]
    rfl

/-- Dict lookup in the `buildSales` pairs agrees with taking the fourth
stored field of the last matching record. -/
theorem buildSales_lookup {adjis : List (List String)}
    {sl : List (String × String)} (h : buildSales adjis = .ok sl) (k : String) :
    salesLookup sl k = (lastAdjiFor adjis k).bind (fun a => a.get? 3) := by
  induction adjis generalizing sl with
  | nil =>
    have : ([] : List (String × String)) = sl := Except.ok.inj h
    subst this
    rfl
  | cons adj rest ih =>
    unfold buildSales at h
    obtain ⟨k0, hk0, h⟩ := exceptBind_ok h
    obtain ⟨v0, hv0, h⟩ := exceptBind_ok h
    obtain ⟨sl2, hsl, h⟩ := exceptBind_ok h
    have hout : (k0, v0) :: sl2 = sl := Except.ok.inj h
    subst hout
    unfold salesLookup lastAdjiFor
    rw [ih hsl]
    cases hl : lastAdjiFor rest k with
    | some r =>
      obtain ⟨hm, _⟩ := lastAdjiFor_mem hl
      obtain ⟨k1, v1, _, hv1⟩ := buildSales_ok_mem hsl r hm
      rw [List.get?_eq_getElem?] at hv1
      simp [hv1]
    | none =>
      have hh : adj.head? = some k0 := by
        have := listGet_ok hk0
        rwa [← List.get?_zero]
      have hv0b : adj.get? 3 = some v0 := listGet_ok hv0
      rw [List.get?_eq_getElem?] at hv0b
      rw [hh]
      by_cases hkk : k0 = k
      · subst hkk
        simp [hv0b]
      · simp [hkk]

/-- C4: counterexample.  In the group `gSale` the item order number is `1`
under either field numbering, and the matching `ADJI` record is
`ADJI,1,x,4.44,5.55`: its 4th field, the tag counted as the first field,
is `4.44`, so the claim requires sale `-4,44`; the built item instead
carries `-5,55`, the negated 5th field. -/
theorem sale_fourth_field_refuted :
    process_doc gSale = .ok billSale ∧
    billSale.items = [[itemSale]] ∧
    listGet ["ADJI", "1", "x", "4.44", "5.55"] 3 = .ok "4.44" ∧
    itemSale.sale = "-5,55" ∧
    itemSale.sale ≠ "-" ++ pyReplaceDotComma "4.44" := by decide

/-- C4 (amended): for every line item of a successfully processed item
list, with the item order number read from the 3rd field of the `SI`
record (its 2nd stored field, one past the position the spec example
uses): when no adjustment record has that order number as its 2nd field
(1st stored field), the sale field is exactly the string `0`; otherwise the
sale field is the 5th field of the matching adjustment record — its 4th
stored field, one past the 4th field the claim names — taking the last
matching record per dict overwrite semantics, with `,` substituted for `.`
and a minus sign prefixed. -/
theorem sale_discount_law (items adjis : List (List String)) (refund : Bool)
    (out : List Item) (h : _process_items items adjis refund = .ok out) :
    out.length = items.length ∧
    ∀ i (hi : i < items.length) (ho : i < out.length),
      ∃ order, (items.get ⟨i, hi⟩).get? 1 = some order ∧
        ((∀ a ∈ adjis, a.head? ≠ some order) → (out.get ⟨i, ho⟩).sale = "0") ∧
        (∀ a, lastAdjiFor adjis order = some a →
          ∃ v, a.get? 3 = some v ∧
            (out.get ⟨i, ho⟩).sale = "-" ++ pyReplaceDotComma v) := by
  unfold _process_items at h
  obtain ⟨sales, hsales, h⟩ := exceptBind_ok h
  obtain ⟨hlen, hidx⟩ := processItemsLoop_ok h
  refine ⟨hlen, fun i hi ho => ?_⟩
  obtain ⟨order, storno, q, iid, title, price, ptotal, unitv, ty, h1, _, _, _, _,
    _, _, _, _, hit⟩ := processItem_ok (hidx i hi ho)
  refine ⟨order, h1, fun hnone => ?_, fun a ha => ?_⟩
  · have hl : lastAdjiFor adjis order = none := lastAdjiFor_eq_none hnone
    have hlook := buildSales_lookup hsales order
    rw [hl] at hlook
    rw [hit]
    simp [hlook]
  · obtain ⟨hmem, _⟩ := lastAdjiFor_mem ha
    obtain ⟨k1, v1, _, hv1⟩ := buildSales_ok_mem hsales a hmem
    have hlook := buildSales_lookup hsales order
    rw [ha] at hlook
    refine ⟨v1, hv1, ?_⟩
    rw [hit]
    have hv1b := hv1
    rw [List.get?_eq_getElem?] at hv1b
    simp [hlook, hv1b]

/-- C4 witness: the two line items of the `REFUND` group `gW`, one with a
matching adjustment (order `1`, sale `-1,10`) and one without (order `9`,
sale `0`). -/
theorem sale_discount_law_witness :
    _process_items (mdGetlist mdW "SI") (mdGetlist mdW "ADJI") true =
      .ok [itemW1, itemW2] ∧
    itemW1.sale = "-" ++ pyReplaceDotComma "1.10" ∧ itemW2.sale = "0" ∧
    ([itemW1, itemW2] : List Item).length = (mdGetlist mdW "SI").length := by
  have H := sale_discount_law (mdGetlist mdW "SI") (mdGetlist mdW "ADJI") true
    [itemW1, itemW2] (by decide)
  exact ⟨by decide, by decide, by decide, H.1.symm ▸ rfl⟩

/-- A string with a minus sign prefixed begins with a dash. -/
theorem startsWithDash_dash_append (s : String) :
    startsWithDash ("-" ++ s) = true := by
  cases s with
  | mk data => rfl

/-- C5: counterexample.  In the non-`REFUND` group `gVoid` the `SI` record
carries `V` as its 14th field — the tag counted as the first field, record
index 13 — and `N` as its 15th; the claim then requires a negative amount,
but the built item amount is `2` with no minus sign: the code reads the
void flag from the 15th field. -/
theorem void_flag_fourteenth_field_refuted :
    process_doc gVoid = .ok billVoid ∧
    billVoid.items = [[itemVoid]] ∧
    billVoid.type_ = "SALES" ∧
    listGet ["SI", "a", "1", "I", "T", "1.00", "1.00", "2", "ks", "X", "", "", "",
      "V", "N"] 13 = .ok "V" ∧
    itemVoid.amount = "2" ∧
    startsWithDash itemVoid.amount = false := by decide

/-- C5 (amended): for every successfully built receipt, each line item
amount is the item quantity (the 7th stored field, with the comma
substitution) prefixed by one minus sign exactly when the item void flag
equals `V` or the receipt type is `REFUND` — where the void flag is the
15th field of the `SI` record, its 14th stored field (index 13), one past
the 14th field the claim names.  The two conditions combine by one logical
OR, so a voided item on a `REFUND` receipt is negated once, not twice.
Consequently, for quantities that do not already render with a leading
dash, the amount is negative iff the void flag is `V` or the type is
`REFUND`. -/
theorem amount_sign_law (lines : List Record) (md : List (String × List String))
    (b : Bill) (hmd : buildIndex lines = .ok md) (hb : process_doc lines = .ok b) :
    ∃ out, b.items = [out] ∧ out.length = (mdGetlist md "SI").length ∧
      ∀ i (hi : i < (mdGetlist md "SI").length) (ho : i < out.length),
        ∃ storno q,
          ((mdGetlist md "SI").get ⟨i, hi⟩).get? 13 = some storno ∧
          ((mdGetlist md "SI").get ⟨i, hi⟩).get? 6 = some q ∧
          (out.get ⟨i, ho⟩).amount =
            (if storno = "V" ∨ b.type_ = "REFUND" then "-" ++ pyReplaceDotComma q
             else pyReplaceDotComma q) ∧
          (startsWithDash (pyReplaceDotComma q) = false →
            (startsWithDash ((out.get ⟨i, ho⟩).amount) = true ↔
              (storno = "V" ∨ b.type_ = "REFUND"))) := by
  obtain ⟨md1, dochdr, ty, items, hmd1, _, _, _, _, _, _, _, _, _, _, _, _, hits,
    hty, hitems⟩ := process_doc_ok hb
  have hmeq : md1 = md := Except.ok.inj (hmd1.symm.trans hmd)
  subst hmeq
  unfold _process_items at hits
  obtain ⟨sales, hsales, hloop⟩ := exceptBind_ok hits
  obtain ⟨hlen, hidx⟩ := processItemsLoop_ok hloop
  refine ⟨items, hitems, hlen, fun i hi ho => ?_⟩
  obtain ⟨order, storno, q, iid, title, price, ptotal, unitv, ty2, _, h13, h6, _,
    _, _, _, _, _, hit⟩ := processItem_ok (hidx i hi ho)
  have hamount : (items.get ⟨i, ho⟩).amount =
      (if (storno == "V" || (ty == "REFUND")) then "-" ++ pyReplaceDotComma q
       else pyReplaceDotComma q) := by
    rw [hit]
  have hcond : ((storno == "V" || (ty == "REFUND")) = true) ↔
      (storno = "V" ∨ b.type_ = "REFUND") := by
    rw [hty]
    simp
  refine ⟨storno, q, h13, h6, ?_, ?_⟩
  · rw [hamount]
    by_cases hc : storno = "V" ∨ b.type_ = "REFUND"
    · rw [if_pos (hcond.mpr hc), if_pos hc]
    · rw [if_neg (fun hh => hc (hcond.mp hh)), if_neg hc]
  · intro hq
    rw [hamount]
    by_cases hc : storno = "V" ∨ b.type_ = "REFUND"
    · rw [if_pos (hcond.mpr hc)]
      simp [startsWithDash_dash_append, hc]
    · rw [if_neg (fun hh => hc (hcond.mp hh))]
      simp [hq, hc]

/-- C5 witness: in the `REFUND` group `gW` the unvoided item is negated
once by the refund rule and the voided item is negated once as well, not
twice. -/
theorem amount_sign_law_witness :
    process_doc gW = .ok billW ∧
    itemW1.amount = "-" ++ pyReplaceDotComma "2" ∧
    itemW2.amount = "-" ++ pyReplaceDotComma "3" ∧
    billW.items = [[itemW1, itemW2]] ∧
    ([itemW1, itemW2] : List Item).length = (mdGetlist mdW "SI").length := by
  obtain ⟨out, hout, hlen, _⟩ := amount_sign_law gW mdW billW (by decide) (by decide)
  have hbw : billW.items = [[itemW1, itemW2]] := rfl
  rw [hbw] at hout
  have h1 : [itemW1, itemW2] = out := (List.cons.inj hout).1
  rw [← h1] at hlen
  exact ⟨by decide, by decide, by decide, rfl, hlen⟩

/-- Unfolding of the truncation in the cons case. -/
theorem keep_cons (l : Record) (rest : List Record) :
    keepThroughLastSentinel (l :: rest) =
      if keepThroughLastSentinel rest = [] ∧ isSentinel l = false then []
      else l :: keepThroughLastSentinel rest := rfl

/-- The truncated sequence is empty exactly when no sentinel occurs. -/
theorem keep_eq_nil_iff (l : List Record) :
    keepThroughLastSentinel l = [] ↔ l.any isSentinel = false := by
  induction l with
  | nil => simp [keepThroughLastSentinel]
  | cons x r ih =>
    rw [keep_cons]
    by_cases hk : keepThroughLastSentinel r = []
    · by_cases hx : isSentinel x = false
      · rw [if_pos ⟨hk, hx⟩]
        simp [List.any_cons, hx, ih.mp hk]
      · simp only [Bool.not_eq_false] at hx
        rw [if_neg (fun hcon => by rw [hx] at hcon; cases hcon.2)]
        simp [List.any_cons, hx]
    · rw [if_neg (fun hcon => hk hcon.1)]
      have hrany : r.any isSentinel = true := by
        rcases Bool.eq_false_or_eq_true (r.any isSentinel) with h | h
        · exact h
        · exact absurd (ih.mpr h) hk
      simp [List.any_cons, hrany]

/-- Invariant run of the segmenter loop: over nonempty records and a
sentinel-free buffer it succeeds, the emitted groups concatenate to the
buffer followed by the truncated remaining input whenever a sentinel
remains (and to nothing otherwise), and every emitted group ends in its
unique sentinel record. -/
theorem parse_csv_from_spec : ∀ (input : List Record) (buf : List Record),
    (∀ l ∈ input, l ≠ []) → (∀ r ∈ buf, isSentinel r = false) →
    ∃ gs, parse_csv_from buf input = .ok gs ∧
      gs.flatten = (if input.any isSentinel then buf ++ keepThroughLastSentinel input
                 else []) ∧
      ∀ g ∈ gs, ∃ last, g.getLast? = some last ∧ isSentinel last = true ∧
        g.countP (fun r => isSentinel r) = 1 := by
  intro input
  induction input with
  | nil =>
    intro buf hne hbuf
    exact ⟨[], rfl, by simp, by simp⟩
  | cons l rest ih =>
    intro buf hne hbuf
    have hl : l ≠ [] := hne l (by simp)
    have hr : ∀ x ∈ rest, x ≠ [] := fun x hx => hne x (by simp [hx])
    cases l with
    | nil => exact absurd rfl hl
    | cons a as =>
      by_cases ha : a = "DOCTR"
      · subst ha
        obtain ⟨gs, hgs, hjoin, hgroups⟩ := ih [] hr (by simp)
        have hsent : isSentinel ("DOCTR" :: as) = true := by simp [isSentinel]
        refine ⟨(buf ++ [("DOCTR" :: as)]) :: gs, ?_, ?_, ?_⟩
        · unfold parse_csv_from
          simp [tagOf, listGet, Bind.bind, Except.bind, hgs, pure, Except.pure]
        · have hjoin2 : ((buf ++ [("DOCTR" :: as)]) :: gs).flatten =
              (buf ++ [("DOCTR" :: as)]) ++ gs.flatten := by simp
          rw [hjoin2, hjoin]
          have hany : (("DOCTR" :: as) :: rest).any isSentinel = true := by
            simp [List.any_cons, hsent]
          rw [if_pos hany, keep_cons]
          rw [if_neg (show ¬ (keepThroughLastSentinel rest = [] ∧
              isSentinel ("DOCTR" :: as) = false) from
            fun hcon => by rw [hsent] at hcon; cases hcon.2)]
          by_cases hrest : rest.any isSentinel = true
          · rw [if_pos hrest]
            simp
          · rw [if_neg hrest]
            rw [(keep_eq_nil_iff rest).mpr (by simpa using hrest)]
            simp
        · intro g hg
          rcases List.mem_cons.mp hg with rfl | hg2
          · refine ⟨"DOCTR" :: as, List.getLast?_concat _, hsent, ?_⟩
            rw [List.countP_append]
            have h0 : buf.countP (fun r => isSentinel r) = 0 :=
              List.countP_eq_zero.mpr (fun r hr2 => by simp [hbuf r hr2])
            simp [h0, hsent]
          · exact hgroups g hg2
      · have hsent : isSentinel (a :: as) = false := by simp [isSentinel, ha]
        have hbuf2 : ∀ r ∈ buf ++ [a :: as], isSentinel r = false := by
          intro r hr2
          rcases List.mem_append.mp hr2 with h2 | h2
          · exact hbuf r h2
          · rw [List.mem_singleton.mp h2]
            exact hsent
        obtain ⟨gs, hgs, hjoin, hgroups⟩ := ih (buf ++ [a :: as]) hr hbuf2
        refine ⟨gs, ?_, ?_, hgroups⟩
        · unfold parse_csv_from
          simp [tagOf, listGet, Bind.bind, Except.bind, ha, hgs]
        · rw [hjoin]
          by_cases hrest : rest.any isSentinel = true
          · rw [if_pos hrest,
              if_pos (show ((a :: as) :: rest).any isSentinel = true by
                simp [List.any_cons, hrest]), keep_cons]
            rw [if_neg (show ¬ (keepThroughLastSentinel rest = [] ∧
                isSentinel (a :: as) = false) from fun hcon =>
              absurd ((keep_eq_nil_iff rest).mp hcon.1) (by simp [hrest]))]
            simp
          · rw [if_neg hrest,
              if_neg (show ¬ ((a :: as) :: rest).any isSentinel = true by
                simp only [List.any_cons, hsent, Bool.false_or]
                exact hrest)]

/-- C8: for every finite sequence of (nonempty) records, the segmenter
succeeds, the concatenation of all emitted record groups in emission order
is the original sequence minus the trailing records after the last `DOCTR`
sentinel, and every emitted group ends with its unique sentinel record —
in particular records after the last sentinel are never emitted. -/
theorem segmenter_concat_property (input : List Record)
    (hne : ∀ l ∈ input, l ≠ []) :
    ∃ gs, parse_csv input = .ok gs ∧
      gs.flatten = keepThroughLastSentinel input ∧
      ∀ g ∈ gs, ∃ last, g.getLast? = some last ∧ isSentinel last = true ∧
        g.countP (fun r => isSentinel r) = 1 := by
  obtain ⟨gs, hgs, hjoin, hgroups⟩ := parse_csv_from_spec input [] hne (by simp)
  refine ⟨gs, hgs, ?_, hgroups⟩
  rw [hjoin]
  by_cases hs : input.any isSentinel = true
  · rw [if_pos hs]
    simp
  · rw [if_neg hs]
    rw [(keep_eq_nil_iff input).mpr (by simpa using hs)]

/-- C8 witness: on `inp8` the segmenter emits one group holding the first
two records (sentinel included) and drops the unterminated trailing
record. -/
theorem segmenter_concat_property_witness :
    parse_csv inp8 = .ok [[["DOCHDR", "SALES"], ["DOCTR"]]] ∧
    ([[["DOCHDR", "SALES"], ["DOCTR"]]] : List (List Record)).flatten =
      keepThroughLastSentinel inp8 := by
  obtain ⟨gs, hgs, hjoin, _⟩ := segmenter_concat_property inp8 (by decide)
  have he : parse_csv inp8 = .ok [[["DOCHDR", "SALES"], ["DOCTR"]]] := by decide
  have hg : gs = [[["DOCHDR", "SALES"], ["DOCTR"]]] :=
    Except.ok.inj (hgs.symm.trans he)
  exact ⟨he, hg ▸ hjoin⟩

end Parsovacka
